import Mathlib

/-!
BIP143 signature hash (sighash143.go)

A shallow embedding of `sighash143.go`: the three sub-hash calculators
`calcHashPrevOuts`, `calcHashSequence`, `calcHashOutputs`, the preimage
assembler `calcWitnessSignatureHash`, and the encoders `writeVarInt`,
`writeVarBytes`, `writeTxOut`.

Conventions of the embedding:

* a byte, a `uint16`, a `uint32`, a `uint64` and a `SigHashType` are natural
  numbers; every Go conversion (`uint8(v)`, `uint32(v)`, `uint64(v)`) is an
  explicit reduction modulo `2^w`;
* Go `int`, `int32` and `int64` values are integers;
* a run-time panic (index or slice bound out of range) is the result `none`;
* the `fmt.Printf` calls only write to standard output and are left out;
* the slices `tx.TxIn` and `tx.TxOut` hold pointers in Go; the embedding
  stores the pointed-to records (no nil entries).
-/

set_option linter.unusedVariables false

namespace Sighash143

/-! ## Bytes, Go slices, `encoding/binary`, `bytes.Buffer` -/

/-- A byte, kept as a natural number (the encoders reduce modulo 256). -/
abbrev Byte := Nat

/-- Go indexing `s[i]` with an `int` index: `none` stands for the
index-out-of-range panic (negative index, or `i >= len(s)`). -/
def index? {α : Type} (s : List α) (i : Int) : Option α :=
  if i < 0 then none else s[i.toNat]?

/-- A Go byte slice as the callee sees it: the `len` visible elements, and
the elements of the backing array that lie between `len` and `cap`. -/
structure Slice where
  elems : List Byte
  spare : List Byte
deriving DecidableEq, Repr

/-- Go `len(s)`. -/
def Slice.len (s : Slice) : Nat := s.elems.length

/-- Go `cap(s)`. -/
def Slice.cap (s : Slice) : Nat := s.elems.length + s.spare.length

/-- A slice whose capacity equals its length. -/
def Slice.ofList (l : List Byte) : Slice := ⟨l, []⟩

/-- Go slice expression `s[lo:hi]` on a slice: in range when
`0 <= lo <= hi <= cap(s)`, otherwise it panics (`none`). The Go language
specification bounds the upper index of a slice operand by its capacity, not
by its length, so the result may hold elements of the backing array that lie
beyond `len(s)`. -/
def Slice.slice (s : Slice) (lo hi : Nat) : Option (List Byte) :=
  if lo ≤ hi ∧ hi ≤ s.cap then some (((s.elems ++ s.spare).drop lo).take (hi - lo)) else none

/-- Go `binary.LittleEndian.PutUint16`. -/
def PutUint16 (v : Nat) : List Byte := [v % 256, v / 256 % 256]

/-- Go `binary.LittleEndian.PutUint32`. -/
def PutUint32 (v : Nat) : List Byte :=
  [v % 256, v / 256 % 256, v / 65536 % 256, v / 16777216 % 256]

/-- Go `binary.LittleEndian.PutUint64`. -/
def PutUint64 (v : Nat) : List Byte :=
  [v % 256, v / 256 % 256, v / 65536 % 256, v / 16777216 % 256,
   v / 4294967296 % 256, v / 1099511627776 % 256, v / 281474976710656 % 256,
   v / 72057594037927936 % 256]

/-- Go conversion `uint32(v)` of a signed or unsigned integer. -/
def toUint32 (v : Int) : Nat := (v % 4294967296).toNat

/-- Go conversion `uint64(v)` of a signed integer (two's complement). -/
def toUint64 (v : Int) : Nat := (v % 18446744073709551616).toNat

/-- A Go `error` value; `none` is `nil`. -/
abbrev Error := Option String

/-- The content of a `bytes.Buffer`. -/
abbrev Buffer := List Byte

/-- Go `(*bytes.Buffer).Write`: appends `p`, returns `len(p)` and a nil error. -/
def Buffer.Write (w : Buffer) (p : List Byte) : Buffer × Nat × Error :=
  (w ++ p, p.length, none)

/-! ## btcd `wire` and `txscript` declarations used by the file -/

/-- The btcd type `wire.ShaHash`, a `[32]byte` array. -/
abbrev ShaHash := { b : List Byte // b.length = 32 }

/-- Go `ShaHash.Bytes()`. -/
def ShaHash.Bytes (h : ShaHash) : List Byte := h.val

/-- The value of `var empty [32]byte`. -/
def emptyHash : ShaHash := ⟨List.replicate 32 0, rfl⟩

/-- The btcd type `wire.OutPoint`. -/
structure OutPoint where
  Hash : ShaHash
  Index : Nat
deriving DecidableEq

/-- The btcd type `wire.TxIn`. -/
structure TxIn where
  PreviousOutPoint : OutPoint
  SignatureScript : Slice
  Sequence : Nat
deriving DecidableEq

/-- The btcd type `wire.TxOut`. -/
structure TxOut where
  Value : Int
  PkScript : List Byte
deriving DecidableEq

/-- The btcd type `wire.MsgTx`. -/
structure MsgTx where
  Version : Int
  TxIn : List TxIn
  TxOut : List TxOut
  LockTime : Nat
deriving DecidableEq

/-- The btcd constant `txscript.SigHashOld`. -/
def SigHashOld : Nat := 0x0

/-- The btcd constant `txscript.SigHashAll`. -/
def SigHashAll : Nat := 0x1

/-- The btcd constant `txscript.SigHashNone`. -/
def SigHashNone : Nat := 0x2

/-- The btcd constant `txscript.SigHashSingle`. -/
def SigHashSingle : Nat := 0x3

/-- The btcd constant `txscript.SigHashAnyOneCanPay`. -/
def SigHashAnyOneCanPay : Nat := 0x80

/-- The flag with the ANYONECANPAY bit cleared (its base value). -/
def baseValue (hType : Nat) : Nat := hType &&& 0x7f

/-- The ANYONECANPAY bit of a flag is set. -/
def hasAnyOneCanPay (hType : Nat) : Prop := hType &&& 0x80 = 0x80

instance (hType : Nat) : Decidable (hasAnyOneCanPay hType) := by
  unfold hasAnyOneCanPay; infer_instance

/-! ## SHA-256 (FIPS 180-4), for `wire.DoubleSha256SH`

The sub-hash calculators take the double-hash primitive as a parameter `H`.
`DoubleSha256SH` below is the primitive btcd supplies; it is used to evaluate
the functions at concrete transactions. -/

namespace Sha256

/-- Rotate a 32-bit word right by `n` bits. -/
def rotr32 (x n : Nat) : Nat := ((x >>> n) ||| (x <<< (32 - n))) % 4294967296

/-- The function Sigma0 of FIPS 180-4. -/
def bsig0 (x : Nat) : Nat := rotr32 x 2 ^^^ rotr32 x 13 ^^^ rotr32 x 22

/-- The function Sigma1 of FIPS 180-4. -/
def bsig1 (x : Nat) : Nat := rotr32 x 6 ^^^ rotr32 x 11 ^^^ rotr32 x 25

/-- The function sigma0 of FIPS 180-4. -/
def ssig0 (x : Nat) : Nat := rotr32 x 7 ^^^ rotr32 x 18 ^^^ (x >>> 3)

/-- The function sigma1 of FIPS 180-4. -/
def ssig1 (x : Nat) : Nat := rotr32 x 17 ^^^ rotr32 x 19 ^^^ (x >>> 10)

/-- The function Ch of FIPS 180-4. -/
def ch (x y z : Nat) : Nat := (x &&& y) ^^^ ((4294967295 - x) &&& z)

/-- The function Maj of FIPS 180-4. -/
def maj (x y z : Nat) : Nat := (x &&& y) ^^^ (x &&& z) ^^^ (y &&& z)

/-- The 64 round constants. -/
def K : List Nat := [
  0x428a2f98, 0x71374491, 0xb5c0fbcf, 0xe9b5dba5, 0x3956c25b, 0x59f111f1, 0x923f82a4, 0xab1c5ed5,
  0xd807aa98, 0x12835b01, 0x243185be, 0x550c7dc3, 0x72be5d74, 0x80deb1fe, 0x9bdc06a7, 0xc19bf174,
  0xe49b69c1, 0xefbe4786, 0x0fc19dc6, 0x240ca1cc, 0x2de92c6f, 0x4a7484aa, 0x5cb0a9dc, 0x76f988da,
  0x983e5152, 0xa831c66d, 0xb00327c8, 0xbf597fc7, 0xc6e00bf3, 0xd5a79147, 0x06ca6351, 0x14292967,
  0x27b70a85, 0x2e1b2138, 0x4d2c6dfc, 0x53380d13, 0x650a7354, 0x766a0abb, 0x81c2c92e, 0x92722c85,
  0xa2bfe8a1, 0xa81a664b, 0xc24b8b70, 0xc76c51a3, 0xd192e819, 0xd6990624, 0xf40e3585, 0x106aa070,
  0x19a4c116, 0x1e376c08, 0x2748774c, 0x34b0bcb5, 0x391c0cb3, 0x4ed8aa4a, 0x5b9cca4f, 0x682e6ff3,
  0x748f82ee, 0x78a5636f, 0x84c87814, 0x8cc70208, 0x90befffa, 0xa4506ceb, 0xbef9a3f7, 0xc67178f2]

/-- The eight working variables. -/
structure St where
  a : Nat
  b : Nat
  c : Nat
  d : Nat
  e : Nat
  f : Nat
  g : Nat
  h : Nat
deriving DecidableEq

/-- The initial hash value. -/
def iv : St :=
  ⟨0x6a09e667, 0xbb67ae85, 0x3c6ef372, 0xa54ff53a, 0x510e527f, 0x9b05688c, 0x1f83d9ab, 0x5be0cd19⟩

/-- Big-endian bytes of a 32-bit word. -/
def be32 (v : Nat) : List Byte := [v / 16777216 % 256, v / 65536 % 256, v / 256 % 256, v % 256]

/-- Big-endian bytes of a 64-bit word. -/
def be64 (v : Nat) : List Byte := be32 (v / 4294967296) ++ be32 v

/-- Message padding: a one bit, zeros up to 56 modulo 64, the bit length. -/
def pad (msg : List Byte) : List Byte :=
  msg ++ [128] ++ List.replicate ((119 - msg.length % 64) % 64) 0 ++ be64 (8 * msg.length)

/-- Groups bytes into big-endian 32-bit words. -/
def words : List Byte → List Nat
  | b0 :: b1 :: b2 :: b3 :: rest =>
      (b0 % 256 * 16777216 + b1 % 256 * 65536 + b2 % 256 * 256 + b3 % 256) :: words rest
  | _ => []

/-- Extends the message schedule by `n` words. -/
def schedule : Nat → List Nat → List Nat
  | 0, w => w
  | n + 1, w =>
      let i := w.length
      schedule n (w ++ [(ssig1 (w.getD (i - 2) 0) + w.getD (i - 7) 0
        + ssig0 (w.getD (i - 15) 0) + w.getD (i - 16) 0) % 4294967296])

/-- One round of the compression function. -/
def round (s : St) (kw : Nat × Nat) : St :=
  let t1 := s.h + bsig1 s.e + ch s.e s.f s.g + kw.1 + kw.2
  let t2 := bsig0 s.a + maj s.a s.b s.c
  ⟨(t1 + t2) % 4294967296, s.a, s.b, s.c, (s.d + t1) % 4294967296, s.e, s.f, s.g⟩

/-- The compression function on one 16-word block. -/
def compress (s : St) (block : List Nat) : St :=
  let r := (K.zip (schedule 48 block)).foldl round s
  ⟨(s.a + r.a) % 4294967296, (s.b + r.b) % 4294967296, (s.c + r.c) % 4294967296,
   (s.d + r.d) % 4294967296, (s.e + r.e) % 4294967296, (s.f + r.f) % 4294967296,
   (s.g + r.g) % 4294967296, (s.h + r.h) % 4294967296⟩

/-- Compresses `n` consecutive blocks. -/
def blocks : Nat → List Nat → St → St
  | 0, _, s => s
  | n + 1, ws, s => blocks n (ws.drop 16) (compress s (ws.take 16))

/-- SHA-256 of a byte string. -/
def sum256 (msg : List Byte) : List Byte :=
  let p := pad msg
  let s := blocks (p.length / 64) (words p) iv
  be32 s.a ++ be32 s.b ++ be32 s.c ++ be32 s.d ++ be32 s.e ++ be32 s.f ++ be32 s.g ++ be32 s.h

end Sha256

/-- The btcd function `wire.DoubleSha256SH`: SHA-256 applied twice. -/
def DoubleSha256SH (b : List Byte) : ShaHash :=
  ⟨Sha256.sum256 (Sha256.sum256 b), by simp [Sha256.sum256, Sha256.be32]⟩

/-! ## The encoders of sighash143.go -/

/-- Source `writeVarInt` (lines 195-222); `val` is a `uint64`. -/
def writeVarInt (w : Buffer) (pver : Nat) (val : Nat) : Buffer × Error :=
  if val < 0xfd then
    let r := w.Write [val % 256]
    (r.1, r.2.2)
  else if val ≤ 65535 then
    let buf := [0xfd] ++ PutUint16 (val % 65536)
    let r := w.Write buf
    (r.1, r.2.2)
  else if val ≤ 4294967295 then
    let buf := [0xfe] ++ PutUint32 (val % 4294967296)
    let r := w.Write buf
    (r.1, r.2.2)
  else
    let buf := [0xff] ++ PutUint64 val
    let r := w.Write buf
    (r.1, r.2.2)

/-- Source `writeVarBytes` (lines 226-238). -/
def writeVarBytes (w : Buffer) (pver : Nat) (bytes : List Byte) : Buffer × Error :=
  let slen := bytes.length % 18446744073709551616
  match writeVarInt w pver slen with
  | (w1, some err) => (w1, some err)
  | (w1, none) =>
    match w1.Write bytes with
    | (w2, _, some err) => (w2, some err)
    | (w2, _, none) => (w2, none)

/-- Source `writeTxOut` (lines 242-255); the parameter `to` is named `txo`. -/
def writeTxOut (w : Buffer) (pver : Nat) (version : Int) (txo : TxOut) : Buffer × Error :=
  let buf := PutUint64 (toUint64 txo.Value)
  match w.Write buf with
  | (w1, _, some err) => (w1, some err)
  | (w1, _, none) =>
    match writeVarBytes w1 pver txo.PkScript with
    | (w2, some err) => (w2, some err)
    | (w2, none) => (w2, none)

/-! ## The sub-hash calculators and the preimage assembler -/

/-- Source `calcHashPrevOuts` (lines 83-101). -/
def calcHashPrevOuts (H : List Byte → ShaHash) (tx : MsgTx) (hType : Nat) : ShaHash :=
  if hType = SigHashAnyOneCanPay then
    emptyHash
  else
    let pre := tx.TxIn.foldl
      (fun pre inp =>
        let pre1 := pre ++ inp.PreviousOutPoint.Hash.Bytes
        let buf := PutUint32 inp.PreviousOutPoint.Index
        pre1 ++ buf) []
    H pre

/-- Source `calcHashSequence` (lines 104-120). -/
def calcHashSequence (H : List Byte → ShaHash) (tx : MsgTx) (hType : Nat) : ShaHash :=
  if hType = SigHashSingle ∨ hType = SigHashNone ∨ hType = SigHashAnyOneCanPay then
    emptyHash
  else
    let pre := tx.TxIn.foldl
      (fun pre inp =>
        let buf := PutUint32 inp.Sequence
        pre ++ buf) []
    H pre

/-- Source `calcHashOutputs` (lines 124-145); `none` is the panic of
`tx.TxOut[inIndex]`. -/
def calcHashOutputs (H : List Byte → ShaHash) (tx : MsgTx) (inIndex : Int) (hType : Nat) :
    Option ShaHash :=
  if hType = SigHashNone ∨ (hType = SigHashSingle ∧ inIndex ≤ (tx.TxOut.length : Int)) then
    some emptyHash
  else if hType = SigHashSingle then
    match index? tx.TxOut inIndex with
    | none => none
    | some out =>
      let buf := (writeTxOut [] 0 0 out).1
      some (H buf)
  else
    let pre := tx.TxOut.foldl
      (fun pre out =>
        let buf := (writeTxOut [] 0 0 out).1
        pre ++ buf) []
    some (H pre)

/-- Source `calcWitnessSignatureHash` (lines 28-80); `none` is a panic of
`calcHashOutputs`, of `tx.TxIn[idx]` or of `SignatureScript[2:22]`. -/
def calcWitnessSignatureHash (H : List Byte → ShaHash) (hashType : Nat) (tx : MsgTx)
    (idx : Int) (amt : Int) : Option (List Byte) :=
  let hashPrevOuts := calcHashPrevOuts H tx hashType
  let hashSequence := calcHashSequence H tx hashType
  match calcHashOutputs H tx idx hashType with
  | none => none
  | some hashOutputs =>
    let pre : List Byte := []
    let pre := pre ++ PutUint32 (toUint32 tx.Version)
    let pre := pre ++ hashPrevOuts.Bytes
    let pre := pre ++ hashSequence.Bytes
    match index? tx.TxIn idx with
    | none => none
    | some inp =>
      let pre := pre ++ inp.PreviousOutPoint.Hash.Bytes
      let pre := pre ++ PutUint32 inp.PreviousOutPoint.Index
      let sCode : List Byte := [0x19, 0x76, 0xa9, 0x14]
      match inp.SignatureScript.slice 2 22 with
      | none => none
      | some hash160 =>
        let sCode := sCode ++ hash160
        let sCode := sCode ++ [0x88, 0xac]
        let pre := pre ++ sCode
        let pre := pre ++ PutUint64 (toUint64 amt)
        let pre := pre ++ PutUint32 inp.Sequence
        let pre := pre ++ hashOutputs.Bytes
        let pre := pre ++ PutUint32 tx.LockTime
        let pre := pre ++ PutUint32 (hashType % 4294967296)
        let hsh := H pre
        some hsh.Bytes

/-! ## Concrete transactions

`bip143Tx` is the transaction of the first example of BIP143, the one `main`
loads, with the two unlocking scripts set as `main` sets them. -/

/-- The first input of the BIP143 example. -/
def bip143In0 : TxIn :=
  { PreviousOutPoint :=
      { Hash := ⟨[0xff, 0xf7, 0xf7, 0x88, 0x1a, 0x80, 0x99, 0xaf, 0xa6, 0x94, 0x0d, 0x42, 0xd1, 0xe7, 0xf6, 0x36,
        0x2b, 0xec, 0x38, 0x17, 0x1e, 0xa3, 0xed, 0xf4, 0x33, 0x54, 0x1d, 0xb4, 0xe4, 0xad, 0x96, 0x9f], rfl⟩
        Index := 0 }
    SignatureScript := Slice.ofList
      [0x21, 0x03, 0xc9, 0xf4, 0x83, 0x6b, 0x9a, 0x4f, 0x77, 0xfc, 0x0d, 0x81, 0xf7, 0xbc, 0xb0, 0x1b,
      0x7f, 0x1b, 0x35, 0x91, 0x68, 0x64, 0xb9, 0x47, 0x6c, 0x24, 0x1c, 0xe9, 0xfc, 0x19, 0x8b, 0xd2,
      0x54, 0x32, 0xac]
    Sequence := 0xffffffee }

/-- The second input of the BIP143 example, the one `main` signs. -/
def bip143In1 : TxIn :=
  { PreviousOutPoint :=
      { Hash := ⟨[0xef, 0x51, 0xe1, 0xb8, 0x04, 0xcc, 0x89, 0xd1, 0x82, 0xd2, 0x79, 0x65, 0x5c, 0x3a, 0xa8, 0x9e,
        0x81, 0x5b, 0x1b, 0x30, 0x9f, 0xe2, 0x87, 0xd9, 0xb2, 0xb5, 0x5d, 0x57, 0xb9, 0x0e, 0xc6, 0x8a], rfl⟩
        Index := 1 }
    SignatureScript := Slice.ofList
      [0x00, 0x14, 0x1d, 0x0f, 0x17, 0x2a, 0x0e, 0xcb, 0x48, 0xae, 0xe1, 0xbe, 0x1f, 0x26, 0x87, 0xd2,
      0x96, 0x3a, 0xe3, 0x3f, 0x71, 0xa1]
    Sequence := 0xffffffff }

/-- The first output of the BIP143 example. -/
def bip143Out0 : TxOut :=
  { Value := 112340000
    PkScript := [0x76, 0xa9, 0x14, 0x82, 0x80, 0xb3, 0x7d, 0xf3, 0x78, 0xdb, 0x99, 0xf6, 0x6f, 0x85, 0xc9, 0x5a,
      0x78, 0x3a, 0x76, 0xac, 0x7a, 0x6d, 0x59, 0x88, 0xac] }

/-- The second output of the BIP143 example. -/
def bip143Out1 : TxOut :=
  { Value := 223450000
    PkScript := [0x76, 0xa9, 0x14, 0x3b, 0xde, 0x42, 0xdb, 0xee, 0x7e, 0x4d, 0xbe, 0x6a, 0x21, 0xb2, 0xd5, 0x0c,
      0xe2, 0xf0, 0x16, 0x7f, 0xaa, 0x81, 0x59, 0x88, 0xac] }

/-- The transaction of the BIP143 example. -/
def bip143Tx : MsgTx :=
  { Version := 1, TxIn := [bip143In0, bip143In1], TxOut := [bip143Out0, bip143Out1],
    LockTime := 17 }

/-- The signature hash BIP143 lists for the second input of its example. -/
def bip143SigHash : List Byte :=
  [0xc3, 0x7a, 0xf3, 0x11, 0x16, 0xd1, 0xb2, 0x7c, 0xaf, 0x68, 0xaa, 0xe9, 0xe3, 0xac, 0x82, 0xf1,
  0x47, 0x79, 0x29, 0x01, 0x4d, 0x5b, 0x91, 0x76, 0x57, 0xd0, 0xeb, 0x49, 0x47, 0x8c, 0xb6, 0x70]

/-- A one-input, one-output transaction. -/
def tx11 : MsgTx :=
  { Version := 1, TxIn := [bip143In1], TxOut := [bip143Out0], LockTime := 0 }

/-- A three-input, one-output transaction. -/
def tx31 : MsgTx :=
  { Version := 1, TxIn := [bip143In0, bip143In1, bip143In1], TxOut := [bip143Out0],
    LockTime := 0 }

/-- A four-input, two-output transaction. -/
def tx42 : MsgTx :=
  { Version := 1, TxIn := [bip143In0, bip143In1, bip143In0, bip143In1],
    TxOut := [bip143Out0, bip143Out1], LockTime := 0 }

/-- A two-input, two-output transaction that differs from `bip143Tx` in its first output. -/
def bip143TxAlt : MsgTx :=
  { Version := 1, TxIn := [bip143In0, bip143In1],
    TxOut := [{ Value := 5, PkScript := [0x51] }, bip143Out1], LockTime := 17 }

/-- The second BIP143 input with its 22-byte script held in a slice of length
21 and capacity 22: the last byte lies beyond the length. -/
def bip143In1Spare : TxIn :=
  { bip143In1 with
    SignatureScript :=
      { elems := bip143In1.SignatureScript.elems.take 21
        spare := bip143In1.SignatureScript.elems.drop 21 } }

/-- The BIP143 transaction with `bip143In1Spare` as its second input. -/
def bip143TxSpare : MsgTx :=
  { bip143Tx with TxIn := [bip143In0, bip143In1Spare] }

/-- An input whose unlocking script has 10 bytes and no spare capacity. -/
def shortIn : TxIn :=
  { bip143In1 with SignatureScript := Slice.ofList [0, 20, 1, 2, 3, 4, 5, 6, 7, 8] }

/-- A one-input transaction whose input has a 10-byte script. -/
def txShort : MsgTx :=
  { Version := 1, TxIn := [shortIn], TxOut := [bip143Out0], LockTime := 0 }

/-- The BIP143 transaction with other unlocking scripts: the first input's
script is emptied, the second keeps bytes 2..21 and changes bytes 0, 1 and
adds a tail. -/
def bip143TxScripts : MsgTx :=
  { bip143Tx with
    TxIn :=
      [{ bip143In0 with SignatureScript := Slice.ofList [] },
       { bip143In1 with
         SignatureScript := Slice.ofList
           ([0x51, 0x20] ++ (bip143In1.SignatureScript.elems.drop 2) ++ [0xde, 0xad]) }] }

/-- A `wire.TxOut` within the ranges of the Go types: `Value` is an `int64` and the length of
`PkScript` fits a `uint64`. -/
def TxOut.InRange (o : TxOut) : Prop :=
  -9223372036854775808 ≤ o.Value ∧ o.Value < 9223372036854775808
    ∧ o.PkScript.length < 18446744073709551616

instance (o : TxOut) : Decidable o.InRange := by
  unfold TxOut.InRange; infer_instance

/-! ## Auxiliary lemmas -/

theorem index?_of_nonneg {α : Type} (s : List α) (i : Int) (h : 0 ≤ i) :
    index? s i = s[i.toNat]? := by
  unfold index?
  rw [if_neg (by omega)]

theorem index?_eq_none_of_length_lt {α : Type} (s : List α) (i : Int)
    (h : (s.length : Int) < i) : index? s i = none := by
  unfold index?
  rw [if_neg (by omega)]
  exact List.getElem?_eq_none (by omega)

theorem Slice.slice_of_le_len (s : Slice) (lo hi : Nat) (hlo : lo ≤ hi) (hhi : hi ≤ s.len) :
    s.slice lo hi = some ((s.elems.drop lo).take (hi - lo)) := by
  unfold Slice.len at hhi
  have hcap : lo ≤ hi ∧ hi ≤ s.cap := ⟨hlo, by unfold Slice.cap; omega⟩
  unfold Slice.slice
  rw [if_pos hcap, List.drop_append_of_le_length (by omega),
    List.take_append_of_le_length (by rw [List.length_drop]; omega)]

theorem PutUint32_mod (v : Nat) : PutUint32 (v % 4294967296) = PutUint32 v := by
  unfold PutUint32
  have h1 : v % 4294967296 % 256 = v % 256 := by omega
  have h2 : v % 4294967296 / 256 % 256 = v / 256 % 256 := by omega
  have h3 : v % 4294967296 / 65536 % 256 = v / 65536 % 256 := by omega
  have h4 : v % 4294967296 / 16777216 % 256 = v / 16777216 % 256 := by omega
  rw [h1, h2, h3, h4]

theorem PutUint32_length (v : Nat) : (PutUint32 v).length = 4 := rfl

theorem PutUint64_length (v : Nat) : (PutUint64 v).length = 8 := rfl

theorem foldl_append_eq_flatMap {α β : Type} (f : α → List β) (l : List α) (init : List β) :
    l.foldl (fun pre x => pre ++ f x) init = init ++ l.flatMap f := by
  induction l generalizing init with
  | nil => simp
  | cons x xs ih => simp [ih]

theorem writeVarInt_snd (w : Buffer) (pver val : Nat) : (writeVarInt w pver val).2 = none := by
  unfold writeVarInt Buffer.Write
  split_ifs <;> rfl

theorem writeVarInt_fst (w : Buffer) (pver val : Nat) :
    (writeVarInt w pver val).1 = w ++ (writeVarInt [] 0 val).1 := by
  unfold writeVarInt Buffer.Write
  split_ifs <;> simp

theorem writeVarBytes_eq (w : Buffer) (pver : Nat) (bytes : List Byte) :
    writeVarBytes w pver bytes
      = (w ++ (writeVarInt [] 0 (bytes.length % 18446744073709551616)).1 ++ bytes, none) := by
  have hw : writeVarInt w pver (bytes.length % 18446744073709551616)
      = (w ++ (writeVarInt [] 0 (bytes.length % 18446744073709551616)).1, none) :=
    Prod.ext (writeVarInt_fst _ _ _) (writeVarInt_snd _ _ _)
  unfold writeVarBytes
  simp [hw, Buffer.Write]

theorem writeTxOut_eq (w : Buffer) (pver : Nat) (version : Int) (txo : TxOut) :
    writeTxOut w pver version txo
      = (w ++ PutUint64 (toUint64 txo.Value)
          ++ (writeVarInt [] 0 (txo.PkScript.length % 18446744073709551616)).1
          ++ txo.PkScript, none) := by
  unfold writeTxOut
  simp [Buffer.Write, writeVarBytes_eq]

theorem calcHashOutputs_single_of_length_lt (H : List Byte → ShaHash) (tx : MsgTx)
    (inIndex : Int) (h : (tx.TxOut.length : Int) < inIndex) :
    calcHashOutputs H tx inIndex SigHashSingle = none := by
  unfold calcHashOutputs
  rw [if_neg (by simp [SigHashSingle, SigHashNone]; omega), if_pos rfl,
    index?_eq_none_of_length_lt _ _ h]

theorem calcHashOutputs_all (H : List Byte → ShaHash) (tx : MsgTx) (inIndex : Int)
    (hType : Nat) (hn : hType ≠ SigHashNone) (hs : hType ≠ SigHashSingle) :
    calcHashOutputs H tx inIndex hType
      = some (H (tx.TxOut.flatMap (fun out =>
          PutUint64 (toUint64 out.Value)
            ++ (writeVarInt [] 0 (out.PkScript.length % 18446744073709551616)).1
            ++ out.PkScript))) := by
  unfold calcHashOutputs
  rw [if_neg (by simp [hn, hs]), if_neg hs]
  simp [foldl_append_eq_flatMap, writeTxOut_eq]

/-! ## The preimage assembler -/

/-- C1: for a valid input index `idx` whose input `inp` has an unlocking script
of at least 22 bytes, `calcWitnessSignatureHash` fails exactly when
`calcHashOutputs` fails, and otherwise returns the double hash of
LE32(version) ++ hashPrevOuts ++ hashSequence ++ outpoint hash ++
LE32(outpoint index) ++ 19 76 a9 14 ++ script[2..22) ++ 88 ac ++ LE64(amt) ++
LE32(sequence) ++ hashOutputs ++ LE32(lock time) ++ LE32(hashType). -/
theorem calcWitnessSignatureHash_preimage (H : List Byte → ShaHash) (hashType : Nat)
    (tx : MsgTx) (idx amt : Int) (inp : TxIn)
    (h0 : 0 ≤ idx) (hlt : idx < (tx.TxIn.length : Int))
    (hinp : tx.TxIn[idx.toNat]? = some inp) (hlen : 22 ≤ inp.SignatureScript.len) :
    calcWitnessSignatureHash H hashType tx idx amt =
      (calcHashOutputs H tx idx hashType).map (fun hashOutputs =>
        (H (PutUint32 (toUint32 tx.Version)
          ++ (calcHashPrevOuts H tx hashType).val
          ++ (calcHashSequence H tx hashType).val
          ++ inp.PreviousOutPoint.Hash.val
          ++ PutUint32 inp.PreviousOutPoint.Index
          ++ [0x19, 0x76, 0xa9, 0x14]
          ++ (inp.SignatureScript.elems.drop 2).take 20
          ++ [0x88, 0xac]
          ++ PutUint64 (toUint64 amt)
          ++ PutUint32 inp.Sequence
          ++ hashOutputs.val
          ++ PutUint32 tx.LockTime
          ++ PutUint32 hashType)).val) := by
  unfold calcWitnessSignatureHash
  cases hout : calcHashOutputs H tx idx hashType with
  | none => rfl
  | some hashOutputs =>
    simp only [Option.map_some', index?_of_nonneg _ _ h0, hinp,
      Slice.slice_of_le_len inp.SignatureScript 2 22 (by decide) hlen, PutUint32_mod,
      ShaHash.Bytes, List.nil_append, List.append_assoc]

/-- Witness of C1: the second input of the BIP143 example, flag ALL. -/
theorem calcWitnessSignatureHash_preimage_witness :
    (0 : Int) ≤ 1 ∧ (1 : Int) < (bip143Tx.TxIn.length : Int)
    ∧ bip143Tx.TxIn[(1 : Int).toNat]? = some bip143In1
    ∧ 22 ≤ bip143In1.SignatureScript.len
    ∧ calcWitnessSignatureHash DoubleSha256SH SigHashAll bip143Tx 1 600000000 =
      (calcHashOutputs DoubleSha256SH bip143Tx 1 SigHashAll).map (fun hashOutputs =>
        (DoubleSha256SH (PutUint32 (toUint32 bip143Tx.Version)
          ++ (calcHashPrevOuts DoubleSha256SH bip143Tx SigHashAll).val
          ++ (calcHashSequence DoubleSha256SH bip143Tx SigHashAll).val
          ++ bip143In1.PreviousOutPoint.Hash.val
          ++ PutUint32 bip143In1.PreviousOutPoint.Index
          ++ [0x19, 0x76, 0xa9, 0x14]
          ++ (bip143In1.SignatureScript.elems.drop 2).take 20
          ++ [0x88, 0xac]
          ++ PutUint64 (toUint64 600000000)
          ++ PutUint32 bip143In1.Sequence
          ++ hashOutputs.val
          ++ PutUint32 bip143Tx.LockTime
          ++ PutUint32 SigHashAll)).val) :=
  ⟨by decide, by decide, rfl, by decide,
    calcWitnessSignatureHash_preimage DoubleSha256SH SigHashAll bip143Tx 1 600000000 bip143In1
      (by decide) (by decide) rfl (by decide)⟩

/-- The embedding reproduces the BIP143 example: signing the second input with
flag ALL and amount 6 BTC gives the signature hash listed there. -/
theorem bip143_example_sighash :
    calcWitnessSignatureHash DoubleSha256SH SigHashAll bip143Tx 1 600000000
      = some bip143SigHash := by
  decide!

/-! ## Flag gating of the sub-hashes

The comments on lines 84 and 105 say the sub-hash is skipped (zero) "for
anyonecanpay" and "for single, none, anyonecanpay"; lines 85, 106-107 and 126
compare the whole flag with `==`, so a flag that combines ANYONECANPAY with a
base value (0x81, 0x82, 0x83) matches none of the constants. -/

/-- C2: with the flag ALL|ANYONECANPAY = 0x81, whose ANYONECANPAY bit is set,
`calcHashPrevOuts` of a one-input transaction does not return the zero value:
it returns the double hash of the 36-byte outpoint. -/
theorem calcHashPrevOuts_anyOneCanPay_bit_not_zeroed :
    tx11.TxIn.length = 1 ∧ hasAnyOneCanPay 0x81
    ∧ calcHashPrevOuts DoubleSha256SH tx11 0x81
        = DoubleSha256SH (bip143In1.PreviousOutPoint.Hash.val ++ [1, 0, 0, 0])
    ∧ calcHashPrevOuts DoubleSha256SH tx11 0x81 ≠ emptyHash := by
  decide!

/-- Line 85 zeroes `calcHashPrevOuts` only when the whole flag equals
`SigHashAnyOneCanPay` (0x80). -/
theorem calcHashPrevOuts_anyOneCanPay (H : List Byte → ShaHash) (tx : MsgTx) :
    calcHashPrevOuts H tx SigHashAnyOneCanPay = emptyHash
    ∧ emptyHash.val = List.replicate 32 0 := by
  constructor
  · unfold calcHashPrevOuts
    rw [if_pos rfl]
  · rfl

/-- C3: with SINGLE|ANYONECANPAY = 0x83 (base value SINGLE, ANYONECANPAY bit
set) and with ALL|ANYONECANPAY = 0x81, `calcHashSequence` of a one-input
transaction does not return the zero value: it returns the double hash of the
4-byte sequence number. -/
theorem calcHashSequence_combined_flag_not_zeroed :
    baseValue 0x83 = SigHashSingle ∧ hasAnyOneCanPay 0x83 ∧ hasAnyOneCanPay 0x81
    ∧ calcHashSequence DoubleSha256SH tx11 0x83 = DoubleSha256SH [0xff, 0xff, 0xff, 0xff]
    ∧ calcHashSequence DoubleSha256SH tx11 0x83 ≠ emptyHash
    ∧ calcHashSequence DoubleSha256SH tx11 0x81 ≠ emptyHash := by
  decide!

/-- Lines 106-107 zero `calcHashSequence` when the whole flag equals one of
`SigHashSingle`, `SigHashNone`, `SigHashAnyOneCanPay`. -/
theorem calcHashSequence_zero (H : List Byte → ShaHash) (tx : MsgTx) :
    calcHashSequence H tx SigHashSingle = emptyHash
    ∧ calcHashSequence H tx SigHashNone = emptyHash
    ∧ calcHashSequence H tx SigHashAnyOneCanPay = emptyHash
    ∧ emptyHash.val = List.replicate 32 0 := by
  refine ⟨?_, ?_, ?_, rfl⟩ <;> unfold calcHashSequence <;> rw [if_pos (by simp)]

/-- C4: with NONE|ANYONECANPAY = 0x82, whose base value is NONE,
`calcHashOutputs` does not return the zero value: it returns the double hash
of all the outputs. -/
theorem calcHashOutputs_none_anyOneCanPay_not_zeroed :
    baseValue 0x82 = SigHashNone
    ∧ calcHashOutputs DoubleSha256SH tx11 0 0x82
        = some (DoubleSha256SH (writeTxOut [] 0 0 bip143Out0).1)
    ∧ calcHashOutputs DoubleSha256SH tx11 0 0x82 ≠ some emptyHash := by
  decide!

/-- Line 126 zeroes `calcHashOutputs` for NONE only when the whole flag equals
`SigHashNone` (0x02). -/
theorem calcHashOutputs_none (H : List Byte → ShaHash) (tx : MsgTx) (inIndex : Int) :
    calcHashOutputs H tx inIndex SigHashNone = some emptyHash
    ∧ emptyHash.val = List.replicate 32 0 := by
  constructor
  · unfold calcHashOutputs
    rw [if_pos (Or.inl rfl)]
  · rfl

/-! ## SINGLE and the comparison `inIndex <= len(tx.TxOut)` -/

/-- C5: at a three-input, one-output transaction, flag SINGLE and signing index
2 (not a valid output index), `calcHashOutputs` does not return the zero value:
the read of `tx.TxOut[2]` is out of range. -/
theorem calcHashOutputs_single_past_end_fails :
    (tx31.TxOut.length : Int) ≤ 2
    ∧ calcHashOutputs DoubleSha256SH tx31 2 SigHashSingle = none
    ∧ calcHashOutputs DoubleSha256SH tx31 2 SigHashSingle ≠ some emptyHash := by
  decide

/-- C6: at a four-input, two-output transaction, flag SINGLE and signing index
3 (greater than the number of outputs), there is no output `tx.TxOut[3]` and
`calcHashOutputs` returns no digest. -/
theorem calcHashOutputs_single_out_of_range_no_digest :
    (tx42.TxOut.length : Int) < 3
    ∧ index? tx42.TxOut 3 = none
    ∧ calcHashOutputs DoubleSha256SH tx42 3 SigHashSingle = none := by
  decide

/-- C7: for flag SINGLE and every signing index `inIndex <= len(tx.TxOut)`
(negative indices and `inIndex = len(tx.TxOut)` included), `calcHashOutputs`
returns the 32-byte zero value, and so does any transaction with as many
outputs, whatever they hold. -/
theorem calcHashOutputs_single_le_length (H : List Byte → ShaHash) (tx : MsgTx)
    (inIndex : Int) (h : inIndex ≤ (tx.TxOut.length : Int)) :
    calcHashOutputs H tx inIndex SigHashSingle = some emptyHash
    ∧ emptyHash.val = List.replicate 32 0
    ∧ ∀ tx2 : MsgTx, tx2.TxOut.length = tx.TxOut.length →
        calcHashOutputs H tx2 inIndex SigHashSingle = some emptyHash := by
  refine ⟨?_, rfl, ?_⟩
  · unfold calcHashOutputs
    rw [if_pos (Or.inr ⟨rfl, h⟩)]
  · intro tx2 h2
    unfold calcHashOutputs
    rw [if_pos (Or.inr ⟨rfl, by rw [h2]; exact h⟩)]

/-- Witness of C7: signing index 2 on the two-output BIP143 transaction. -/
theorem calcHashOutputs_single_le_length_witness :
    (2 : Int) ≤ (bip143Tx.TxOut.length : Int)
    ∧ calcHashOutputs DoubleSha256SH bip143Tx 2 SigHashSingle = some emptyHash :=
  ⟨by decide, (calcHashOutputs_single_le_length DoubleSha256SH bip143Tx 2 (by decide)).1⟩

/-- C8: for flag SINGLE and a signing index `i` with `0 <= i < len(tx.TxOut)`,
two transactions with the same number of outputs and the same output at
position `i` get the same `calcHashOutputs`, and the call returns. -/
theorem calcHashOutputs_single_isolation (H : List Byte → ShaHash) (tx1 tx2 : MsgTx)
    (i : Int) (h0 : 0 ≤ i) (hlt : i < (tx1.TxOut.length : Int))
    (hlen : tx1.TxOut.length = tx2.TxOut.length)
    (hsame : tx1.TxOut[i.toNat]? = tx2.TxOut[i.toNat]?) :
    calcHashOutputs H tx1 i SigHashSingle = calcHashOutputs H tx2 i SigHashSingle
    ∧ (calcHashOutputs H tx1 i SigHashSingle).isSome = true := by
  have h1 : calcHashOutputs H tx1 i SigHashSingle = some emptyHash := by
    unfold calcHashOutputs
    rw [if_pos (Or.inr ⟨rfl, by omega⟩)]
  have h2 : calcHashOutputs H tx2 i SigHashSingle = some emptyHash := by
    unfold calcHashOutputs
    rw [if_pos (Or.inr ⟨rfl, by omega⟩)]
  rw [h1, h2]
  exact ⟨rfl, rfl⟩

/-- Witness of C8: the BIP143 transaction and one that differs in output 0,
signing index 1. -/
theorem calcHashOutputs_single_isolation_witness :
    bip143Tx.TxOut ≠ bip143TxAlt.TxOut
    ∧ calcHashOutputs DoubleSha256SH bip143Tx 1 SigHashSingle
        = calcHashOutputs DoubleSha256SH bip143TxAlt 1 SigHashSingle :=
  ⟨by decide,
    (calcHashOutputs_single_isolation DoubleSha256SH bip143Tx bip143TxAlt 1
      (by decide) (by decide) rfl rfl).1⟩

/-! ## The computed sub-hashes -/

/-- C9: for every flag whose base value is neither NONE nor SINGLE (ALL = 0x01
and the default 0x00 among them), `calcHashOutputs` returns the double hash of
the concatenation, in output order, of LE64(amount) ++ varint(script length) ++
script of every output; for an empty output list that is the double hash of
the empty byte string. -/
theorem calcHashOutputs_all_outputs (H : List Byte → ShaHash) (tx : MsgTx) (inIndex : Int)
    (hType : Nat) (hn : baseValue hType ≠ SigHashNone) (hs : baseValue hType ≠ SigHashSingle) :
    calcHashOutputs H tx inIndex hType
      = some (H (tx.TxOut.flatMap (fun out =>
          PutUint64 (toUint64 out.Value)
            ++ (writeVarInt [] 0 (out.PkScript.length % 18446744073709551616)).1
            ++ out.PkScript)))
    ∧ calcHashOutputs H tx inIndex hType
      = some (H (tx.TxOut.flatMap (fun out => (writeTxOut [] 0 0 out).1)))
    ∧ (tx.TxOut = [] → calcHashOutputs H tx inIndex hType = some (H [])) := by
  have hn2 : hType ≠ SigHashNone := by
    rintro rfl
    exact hn (by decide)
  have hs2 : hType ≠ SigHashSingle := by
    rintro rfl
    exact hs (by decide)
  have hall := calcHashOutputs_all H tx inIndex hType hn2 hs2
  refine ⟨hall, ?_, ?_⟩
  · rw [hall]
    simp [writeTxOut_eq]
  · intro hnil
    rw [hall, hnil]
    rfl

/-- Witness of C9: flag ALL on the BIP143 transaction. -/
theorem calcHashOutputs_all_outputs_witness :
    baseValue SigHashAll ≠ SigHashNone ∧ baseValue SigHashAll ≠ SigHashSingle
    ∧ calcHashOutputs DoubleSha256SH bip143Tx 1 SigHashAll
      = some (DoubleSha256SH (bip143Tx.TxOut.flatMap (fun out =>
          PutUint64 (toUint64 out.Value)
            ++ (writeVarInt [] 0 (out.PkScript.length % 18446744073709551616)).1
            ++ out.PkScript))) :=
  ⟨by decide, by decide,
    (calcHashOutputs_all_outputs DoubleSha256SH bip143Tx 1 SigHashAll
      (by decide) (by decide)).1⟩

/-- C10: for every flag whose ANYONECANPAY bit is not set, `calcHashPrevOuts`
returns the double hash of the concatenation, in input order, of each input's
32-byte outpoint hash followed by LE32(outpoint index); that buffer has
exactly `36 * len(tx.TxIn)` bytes. -/
theorem calcHashPrevOuts_hash (H : List Byte → ShaHash) (tx : MsgTx) (hType : Nat)
    (h : ¬ hasAnyOneCanPay hType) :
    calcHashPrevOuts H tx hType
      = H (tx.TxIn.flatMap (fun inp =>
          inp.PreviousOutPoint.Hash.val ++ PutUint32 inp.PreviousOutPoint.Index))
    ∧ (tx.TxIn.flatMap (fun inp =>
          inp.PreviousOutPoint.Hash.val ++ PutUint32 inp.PreviousOutPoint.Index)).length
        = 36 * tx.TxIn.length := by
  have hne : hType ≠ SigHashAnyOneCanPay := by
    rintro rfl
    exact h (by decide)
  constructor
  · unfold calcHashPrevOuts
    rw [if_neg hne]
    have hfold := foldl_append_eq_flatMap
      (fun inp : TxIn => inp.PreviousOutPoint.Hash.val ++ PutUint32 inp.PreviousOutPoint.Index)
      tx.TxIn []
    simp only [List.nil_append, ← List.append_assoc] at hfold
    simp only [ShaHash.Bytes, hfold]
  · induction tx.TxIn with
    | nil => rfl
    | cons inp rest ih =>
      simp only [List.flatMap_cons, List.length_append, List.length_cons, ih,
        inp.PreviousOutPoint.Hash.property, PutUint32_length]
      omega

/-- Witness of C10: flag ALL on the BIP143 transaction. -/
theorem calcHashPrevOuts_hash_witness :
    ¬ hasAnyOneCanPay SigHashAll
    ∧ calcHashPrevOuts DoubleSha256SH bip143Tx SigHashAll
      = DoubleSha256SH (bip143Tx.TxIn.flatMap (fun inp =>
          inp.PreviousOutPoint.Hash.val ++ PutUint32 inp.PreviousOutPoint.Index))
    ∧ (bip143Tx.TxIn.flatMap (fun inp =>
          inp.PreviousOutPoint.Hash.val ++ PutUint32 inp.PreviousOutPoint.Index)).length
        = 36 * bip143Tx.TxIn.length :=
  ⟨by decide, calcHashPrevOuts_hash DoubleSha256SH bip143Tx SigHashAll (by decide)⟩

/-! ## The sequence-number hash -/

/-- C11: for every flag whose base value is neither SINGLE nor NONE and whose
ANYONECANPAY bit is not set, `calcHashSequence` returns the double hash of the
concatenation, in input order, of LE32(sequence) of every input; that buffer
has exactly `4 * len(tx.TxIn)` bytes. -/
theorem calcHashSequence_hash (H : List Byte → ShaHash) (tx : MsgTx) (hType : Nat)
    (hs : baseValue hType ≠ SigHashSingle) (hn : baseValue hType ≠ SigHashNone)
    (ha : ¬ hasAnyOneCanPay hType) :
    calcHashSequence H tx hType = H (tx.TxIn.flatMap (fun inp => PutUint32 inp.Sequence))
    ∧ (tx.TxIn.flatMap (fun inp => PutUint32 inp.Sequence)).length = 4 * tx.TxIn.length := by
  have hs2 : hType ≠ SigHashSingle := by
    rintro rfl
    exact hs (by decide)
  have hn2 : hType ≠ SigHashNone := by
    rintro rfl
    exact hn (by decide)
  have ha2 : hType ≠ SigHashAnyOneCanPay := by
    rintro rfl
    exact ha (by decide)
  constructor
  · unfold calcHashSequence
    rw [if_neg (by simp [hs2, hn2, ha2])]
    have hfold := foldl_append_eq_flatMap (fun inp : TxIn => PutUint32 inp.Sequence) tx.TxIn []
    simp only [List.nil_append] at hfold
    simp only [hfold]
  · induction tx.TxIn with
    | nil => rfl
    | cons inp rest ih =>
      simp only [List.flatMap_cons, List.length_append, List.length_cons, ih, PutUint32_length]
      omega

/-- Witness of C11: flag ALL on the BIP143 transaction. -/
theorem calcHashSequence_hash_witness :
    baseValue SigHashAll ≠ SigHashSingle ∧ baseValue SigHashAll ≠ SigHashNone
    ∧ ¬ hasAnyOneCanPay SigHashAll
    ∧ calcHashSequence DoubleSha256SH bip143Tx SigHashAll
        = DoubleSha256SH [0xee, 0xff, 0xff, 0xff, 0xff, 0xff, 0xff, 0xff] :=
  ⟨by decide, by decide, by decide,
    (calcHashSequence_hash DoubleSha256SH bip143Tx SigHashAll
      (by decide) (by decide) (by decide)).1⟩

/-! ## The encoders -/

/-- C12: `writeVarInt` appends the single byte `val` when `val < 0xFD`; 0xFD
and the 2-byte little-endian `val` when `0xFD <= val <= 0xFFFF`; 0xFE and the
4-byte little-endian `val` when `0x10000 <= val <= 0xFFFFFFFF`; 0xFF and the
8-byte little-endian `val` otherwise. The values 0, 0xFC, 0xFD, 0xFFFF,
0x10000, 0xFFFFFFFF and 0x100000000 take 1, 1, 3, 3, 5, 5 and 9 bytes, and the
returned error is nil. -/
theorem writeVarInt_encoding (w : Buffer) (pver val : Nat) :
    (val < 0xfd → writeVarInt w pver val = (w ++ [val], none))
    ∧ (0xfd ≤ val → val ≤ 0xffff →
        writeVarInt w pver val = (w ++ 0xfd :: PutUint16 val, none))
    ∧ (0x10000 ≤ val → val ≤ 0xffffffff →
        writeVarInt w pver val = (w ++ 0xfe :: PutUint32 val, none))
    ∧ (0x100000000 ≤ val → writeVarInt w pver val = (w ++ 0xff :: PutUint64 val, none))
    ∧ (writeVarInt w pver val).2 = none
    ∧ (List.map (fun v => (writeVarInt [] pver v).1.length)
          [0, 0xfc, 0xfd, 0xffff, 0x10000, 0xffffffff, 0x100000000]
        = [1, 1, 3, 3, 5, 5, 9])
    ∧ (writeVarInt [] pver 0xfc).1 = [0xfc]
    ∧ (writeVarInt [] pver 0xfd).1 = [0xfd, 0xfd, 0x00]
    ∧ (writeVarInt [] pver 0x10000).1 = [0xfe, 0x00, 0x00, 0x01, 0x00]
    ∧ (writeVarInt [] pver 0x100000000).1
        = [0xff, 0x00, 0x00, 0x00, 0x00, 0x01, 0x00, 0x00, 0x00] := by
  refine ⟨?_, ?_, ?_, ?_, writeVarInt_snd w pver val, rfl, rfl, rfl, rfl, rfl⟩
  · intro h
    unfold writeVarInt Buffer.Write
    rw [if_pos h, Nat.mod_eq_of_lt (by omega)]
  · intro h1 h2
    unfold writeVarInt Buffer.Write
    rw [if_neg (by omega), if_pos h2, Nat.mod_eq_of_lt (by omega)]
    rfl
  · intro h1 h2
    unfold writeVarInt Buffer.Write
    rw [if_neg (by omega), if_neg (by omega), if_pos h2, Nat.mod_eq_of_lt (by omega)]
    rfl
  · intro h1
    unfold writeVarInt Buffer.Write
    rw [if_neg (by omega), if_neg (by omega), if_neg (by omega)]
    rfl

/-- C13: for a byte sequence `data` (its length fits a `uint64`) and a buffer
holding `b`, `writeVarBytes` leaves the buffer equal to
`b ++ varint(len(data)) ++ data` and returns a nil error. -/
theorem writeVarBytes_encoding (b : Buffer) (pver : Nat) (data : List Byte)
    (hlen : data.length < 18446744073709551616) :
    writeVarBytes b pver data = (b ++ (writeVarInt [] pver data.length).1 ++ data, none) := by
  rw [writeVarBytes_eq, Nat.mod_eq_of_lt hlen]
  have h1 := writeVarInt_fst [] pver data.length
  simp only [List.nil_append] at h1
  rw [h1]

/-- Witness of C13: three bytes appended to a buffer that holds two. -/
theorem writeVarBytes_encoding_witness :
    [0xaa, 0xbb, 0xcc].length < 18446744073709551616
    ∧ writeVarBytes [1, 2] 0 [0xaa, 0xbb, 0xcc] = ([1, 2] ++ [3] ++ [0xaa, 0xbb, 0xcc], none) :=
  ⟨by decide, writeVarBytes_encoding [1, 2] 0 [0xaa, 0xbb, 0xcc] (by decide)⟩

/-- C14: `writeTxOut` appends the same bytes for every choice of `pver` and
`version`: the 8-byte little-endian encoding of `Value mod 2^64` followed by
the `writeVarBytes` encoding of `PkScript`; the value -1 gives eight 0xFF
bytes. -/
theorem writeTxOut_encoding (w : Buffer) (pver1 pver2 : Nat) (version1 version2 : Int)
    (txo : TxOut) :
    writeTxOut w pver1 version1 txo = writeTxOut w pver2 version2 txo
    ∧ writeTxOut w pver1 version1 txo
        = (w ++ PutUint64 (txo.Value % 18446744073709551616).toNat
            ++ (writeVarBytes [] pver2 txo.PkScript).1, none)
    ∧ (writeTxOut [] pver1 version1 { Value := -1, PkScript := [] }).1
        = [0xff, 0xff, 0xff, 0xff, 0xff, 0xff, 0xff, 0xff, 0x00] := by
  refine ⟨?_, ?_, ?_⟩
  · rw [writeTxOut_eq, writeTxOut_eq]
  · rw [writeTxOut_eq, writeVarBytes_eq]
    simp [toUint64]
  · rw [writeTxOut_eq]
    decide

/-! ## Failure of the preimage assembler -/

theorem index?_eq_none_of_length_le {α : Type} (s : List α) (i : Int)
    (h : (s.length : Int) ≤ i) : index? s i = none := by
  unfold index?
  rw [if_neg (by omega)]
  exact List.getElem?_eq_none (by omega)

theorem Slice.slice_eq_none_of_cap_lt (s : Slice) (lo hi : Nat) (h : s.cap < hi) :
    s.slice lo hi = none := by
  unfold Slice.slice
  rw [if_neg (by omega)]

theorem calcHashOutputs_succeeds (H : List Byte → ShaHash) (tx : MsgTx) (inIndex : Int)
    (hType : Nat) (h : ¬ (hType = SigHashSingle ∧ (tx.TxOut.length : Int) < inIndex)) :
    ∃ d, calcHashOutputs H tx inIndex hType = some d := by
  unfold calcHashOutputs
  split_ifs with h1 h2
  · exact ⟨_, rfl⟩
  · exfalso
    apply h
    refine ⟨h2, ?_⟩
    by_contra hle
    exact h1 (Or.inr ⟨h2, by omega⟩)
  · exact ⟨_, rfl⟩

theorem calcWitnessSignatureHash_returns (H : List Byte → ShaHash) (hashType : Nat)
    (tx : MsgTx) (idx amt : Int) (inp : TxIn)
    (h0 : 0 ≤ idx) (hinp : tx.TxIn[idx.toNat]? = some inp)
    (hlen : 22 ≤ inp.SignatureScript.len)
    (h : ¬ (hashType = SigHashSingle ∧ (tx.TxOut.length : Int) < idx)) :
    ∃ d, calcWitnessSignatureHash H hashType tx idx amt = some d ∧ d.length = 32 := by
  obtain ⟨ho, hho⟩ := calcHashOutputs_succeeds H tx idx hashType h
  unfold calcWitnessSignatureHash
  simp only [hho, index?_of_nonneg _ _ h0, hinp,
    Slice.slice_of_le_len inp.SignatureScript 2 22 (by decide) hlen]
  exact ⟨_, rfl, (H _).property⟩

/-- C15: with `idx >= len(tx.TxIn)` the call to `calcWitnessSignatureHash`
fails (the read of `tx.TxIn[idx]` is out of range) and returns no digest,
whatever the transaction, the flag and the amount are. -/
theorem calcWitnessSignatureHash_idx_out_of_range (H : List Byte → ShaHash) (hashType : Nat)
    (tx : MsgTx) (idx amt : Int) (h : (tx.TxIn.length : Int) ≤ idx) :
    calcWitnessSignatureHash H hashType tx idx amt = none
    ∧ index? tx.TxIn idx = none := by
  have hidx := index?_eq_none_of_length_le tx.TxIn idx h
  refine ⟨?_, hidx⟩
  unfold calcWitnessSignatureHash
  cases calcHashOutputs H tx idx hashType with
  | none => rfl
  | some hashOutputs => simp only [hidx]

/-- Witness of C15: index 2 on the two-input BIP143 transaction. -/
theorem calcWitnessSignatureHash_idx_out_of_range_witness :
    (bip143Tx.TxIn.length : Int) ≤ 2
    ∧ calcWitnessSignatureHash DoubleSha256SH SigHashAll bip143Tx 2 600000000 = none :=
  ⟨by decide,
    (calcWitnessSignatureHash_idx_out_of_range DoubleSha256SH SigHashAll bip143Tx 2 600000000
      (by decide)).1⟩

/-- Counterexample to C16: the second input of the BIP143 transaction holds
its script in a slice of length 21 and capacity 22; `SignatureScript[2:22]` is
within the capacity, so the call returns a digest (the one of the full 22-byte
script) although the script is shorter than 22 bytes. -/
theorem calcWitnessSignatureHash_short_script_counterexample :
    bip143TxSpare.TxIn[(1 : Int).toNat]? = some bip143In1Spare
    ∧ bip143In1Spare.SignatureScript.len = 21
    ∧ bip143In1Spare.SignatureScript.cap = 22
    ∧ calcWitnessSignatureHash DoubleSha256SH SigHashAll bip143TxSpare 1 600000000
        = some bip143SigHash := by
  decide!

/-- C16 (amended): for a valid input index `idx`, if the capacity of
`tx.TxIn[idx].SignatureScript` is below 22 bytes (so also its length) then
`calcWitnessSignatureHash` fails and returns no digest. -/
theorem calcWitnessSignatureHash_short_cap (H : List Byte → ShaHash) (hashType : Nat)
    (tx : MsgTx) (idx amt : Int) (inp : TxIn)
    (h0 : 0 ≤ idx) (hinp : tx.TxIn[idx.toNat]? = some inp)
    (hcap : inp.SignatureScript.cap < 22) :
    calcWitnessSignatureHash H hashType tx idx amt = none
    ∧ inp.SignatureScript.len < 22 := by
  constructor
  · unfold calcWitnessSignatureHash
    cases calcHashOutputs H tx idx hashType with
    | none => rfl
    | some hashOutputs =>
      simp only [index?_of_nonneg _ _ h0, hinp,
        Slice.slice_eq_none_of_cap_lt inp.SignatureScript 2 22 hcap]
  · unfold Slice.cap at hcap
    unfold Slice.len
    omega

/-- Witness of C16 (amended): a 10-byte script without spare capacity. -/
theorem calcWitnessSignatureHash_short_cap_witness :
    (0 : Int) ≤ 0 ∧ txShort.TxIn[(0 : Int).toNat]? = some shortIn
    ∧ shortIn.SignatureScript.cap < 22
    ∧ calcWitnessSignatureHash DoubleSha256SH SigHashAll txShort 0 600000000 = none :=
  ⟨by decide, rfl, by decide,
    (calcWitnessSignatureHash_short_cap DoubleSha256SH SigHashAll txShort 0 600000000 shortIn
      (by decide) rfl (by decide)).1⟩

/-- C17: at a three-input, one-output transaction, flag SINGLE and the valid
input index 2, whose script has 22 bytes, `calcWitnessSignatureHash` returns
no digest: `calcHashOutputs` fails on `tx.TxOut[2]`. -/
theorem calcWitnessSignatureHash_single_fails :
    (0 : Int) ≤ 2 ∧ (2 : Int) < (tx31.TxIn.length : Int)
    ∧ tx31.TxIn[(2 : Int).toNat]? = some bip143In1
    ∧ 22 ≤ bip143In1.SignatureScript.len
    ∧ calcHashOutputs DoubleSha256SH tx31 2 SigHashSingle = none
    ∧ calcWitnessSignatureHash DoubleSha256SH SigHashSingle tx31 2 600000000 = none := by
  decide

/-! ## What the sub-hashes read -/

/-- C18: for every flag other than SINGLE and any two indices `i` and `j`,
`calcHashOutputs tx i flag = calcHashOutputs tx j flag`, and the call returns. -/
theorem calcHashOutputs_index_unused (H : List Byte → ShaHash) (tx : MsgTx) (i j : Int)
    (hType : Nat) (h : hType ≠ SigHashSingle) :
    calcHashOutputs H tx i hType = calcHashOutputs H tx j hType
    ∧ (calcHashOutputs H tx i hType).isSome = true
    ∧ (calcHashOutputs H tx j hType).isSome = true := by
  have key : ∀ k : Int, calcHashOutputs H tx k hType
      = if hType = SigHashNone then some emptyHash
        else some (H (tx.TxOut.foldl (fun pre out => pre ++ (writeTxOut [] 0 0 out).1) [])) := by
    intro k
    unfold calcHashOutputs
    by_cases hn : hType = SigHashNone
    · rw [if_pos (Or.inl hn), if_pos hn]
    · rw [if_neg (by simp [hn, h]), if_neg h, if_neg hn]
  rw [key i, key j]
  refine ⟨rfl, ?_, ?_⟩ <;> split_ifs <;> rfl

/-- Witness of C18: flag ALL on the BIP143 transaction, indices -5 and 7. -/
theorem calcHashOutputs_index_unused_witness :
    SigHashAll ≠ SigHashSingle
    ∧ calcHashOutputs DoubleSha256SH bip143Tx (-5) SigHashAll
        = calcHashOutputs DoubleSha256SH bip143Tx 7 SigHashAll :=
  ⟨by decide,
    (calcHashOutputs_index_unused DoubleSha256SH bip143Tx (-5) 7 SigHashAll (by decide)).1⟩

theorem calcHashPrevOuts_congr (H : List Byte → ShaHash) (tx1 tx2 : MsgTx) (hType : Nat)
    (hin : tx1.TxIn.map (fun inp => (inp.PreviousOutPoint, inp.Sequence))
      = tx2.TxIn.map (fun inp => (inp.PreviousOutPoint, inp.Sequence))) :
    calcHashPrevOuts H tx1 hType = calcHashPrevOuts H tx2 hType := by
  have e : ∀ l : List TxIn,
      l.foldl (fun pre inp =>
          pre ++ inp.PreviousOutPoint.Hash.Bytes ++ PutUint32 inp.PreviousOutPoint.Index) []
        = (l.map (fun inp => (inp.PreviousOutPoint, inp.Sequence))).foldl
            (fun pre (q : OutPoint × Nat) => pre ++ q.1.Hash.Bytes ++ PutUint32 q.1.Index) [] := by
    intro l
    rw [List.foldl_map]
  unfold calcHashPrevOuts
  split_ifs
  · rfl
  · exact congrArg H ((e tx1.TxIn).trans ((congrArg _ hin).trans (e tx2.TxIn).symm))

theorem calcHashSequence_congr (H : List Byte → ShaHash) (tx1 tx2 : MsgTx) (hType : Nat)
    (hin : tx1.TxIn.map (fun inp => (inp.PreviousOutPoint, inp.Sequence))
      = tx2.TxIn.map (fun inp => (inp.PreviousOutPoint, inp.Sequence))) :
    calcHashSequence H tx1 hType = calcHashSequence H tx2 hType := by
  have e : ∀ l : List TxIn,
      l.foldl (fun pre inp => pre ++ PutUint32 inp.Sequence) []
        = (l.map (fun inp => (inp.PreviousOutPoint, inp.Sequence))).foldl
            (fun pre (q : OutPoint × Nat) => pre ++ PutUint32 q.2) [] := by
    intro l
    rw [List.foldl_map]
  unfold calcHashSequence
  split_ifs
  · rfl
  · exact congrArg H ((e tx1.TxIn).trans ((congrArg _ hin).trans (e tx2.TxIn).symm))

theorem calcHashOutputs_congr (H : List Byte → ShaHash) (tx1 tx2 : MsgTx) (inIndex : Int)
    (hType : Nat) (ho : tx1.TxOut = tx2.TxOut) :
    calcHashOutputs H tx1 inIndex hType = calcHashOutputs H tx2 inIndex hType := by
  unfold calcHashOutputs
  rw [ho]

/-- C19: two transactions that are identical except for the `SignatureScript`
fields (same version, lock time, outputs, and the same outpoint and sequence
number input by input), whose scripts at the signing input both have at least
22 bytes and agree on bytes 2..21, get the same `calcWitnessSignatureHash`
for the same flag, index and amount. -/
theorem calcWitnessSignatureHash_script_bytes (H : List Byte → ShaHash) (hashType : Nat)
    (tx1 tx2 : MsgTx) (idx amt : Int) (inp1 inp2 : TxIn)
    (hv : tx1.Version = tx2.Version) (hl : tx1.LockTime = tx2.LockTime)
    (ho : tx1.TxOut = tx2.TxOut)
    (hin : tx1.TxIn.map (fun inp => (inp.PreviousOutPoint, inp.Sequence))
      = tx2.TxIn.map (fun inp => (inp.PreviousOutPoint, inp.Sequence)))
    (h0 : 0 ≤ idx)
    (h1 : tx1.TxIn[idx.toNat]? = some inp1) (h2 : tx2.TxIn[idx.toNat]? = some inp2)
    (hlen1 : 22 ≤ inp1.SignatureScript.len) (hlen2 : 22 ≤ inp2.SignatureScript.len)
    (hbytes : (inp1.SignatureScript.elems.drop 2).take 20
      = (inp2.SignatureScript.elems.drop 2).take 20) :
    calcWitnessSignatureHash H hashType tx1 idx amt
      = calcWitnessSignatureHash H hashType tx2 idx amt := by
  have hq : (inp1.PreviousOutPoint, inp1.Sequence) = (inp2.PreviousOutPoint, inp2.Sequence) := by
    have hidx := congrArg (fun l => l[idx.toNat]?) hin
    simp only [List.getElem?_map, h1, h2, Option.map_some', Option.some.injEq] at hidx
    exact hidx
  have hp : inp1.PreviousOutPoint = inp2.PreviousOutPoint := congrArg Prod.fst hq
  have hs : inp1.Sequence = inp2.Sequence := congrArg Prod.snd hq
  unfold calcWitnessSignatureHash
  rw [calcHashPrevOuts_congr H tx1 tx2 hashType hin, calcHashSequence_congr H tx1 tx2 hashType hin,
    calcHashOutputs_congr H tx1 tx2 idx hashType ho]
  simp only [index?_of_nonneg _ _ h0, h1, h2,
    Slice.slice_of_le_len inp1.SignatureScript 2 22 (by decide) hlen1,
    Slice.slice_of_le_len inp2.SignatureScript 2 22 (by decide) hlen2,
    hv, hl, hp, hs, hbytes]

/-- Witness of C19: the BIP143 transaction and the one with an emptied first
script and a second script changed outside bytes 2..21, second input. -/
theorem calcWitnessSignatureHash_script_bytes_witness :
    bip143Tx.TxIn ≠ bip143TxScripts.TxIn
    ∧ calcWitnessSignatureHash DoubleSha256SH SigHashAll bip143Tx 1 600000000
        = calcWitnessSignatureHash DoubleSha256SH SigHashAll bip143TxScripts 1 600000000 :=
  ⟨by decide,
    calcWitnessSignatureHash_script_bytes DoubleSha256SH SigHashAll bip143Tx bip143TxScripts 1
      600000000 bip143In1
      { bip143In1 with
        SignatureScript := Slice.ofList
          ([0x51, 0x20] ++ (bip143In1.SignatureScript.elems.drop 2) ++ [0xde, 0xad]) }
      rfl rfl rfl (by decide) (by decide) rfl rfl (by decide) (by decide) (by decide)⟩

/-! ## Unique decoding of the hashed outputs -/

theorem PutUint64_injective (a b : Nat) (ha : a < 18446744073709551616)
    (hb : b < 18446744073709551616) (h : PutUint64 a = PutUint64 b) : a = b := by
  unfold PutUint64 at h
  simp only [List.cons.injEq, and_true] at h
  unfold Byte at h
  omega

theorem toUint64_lt (v : Int) : toUint64 v < 18446744073709551616 := by
  unfold toUint64
  omega

theorem toUint64_injective (a b : Int)
    (ha : -9223372036854775808 ≤ a ∧ a < 9223372036854775808)
    (hb : -9223372036854775808 ≤ b ∧ b < 9223372036854775808)
    (h : toUint64 a = toUint64 b) : a = b := by
  unfold toUint64 at h
  omega

theorem writeVarInt_append_injective (a b : Nat) (r1 r2 : List Byte)
    (ha : a < 18446744073709551616) (hb : b < 18446744073709551616)
    (h : (writeVarInt [] 0 a).1 ++ r1 = (writeVarInt [] 0 b).1 ++ r2) : a = b ∧ r1 = r2 := by
  unfold writeVarInt Buffer.Write at h
  split_ifs at h <;>
    simp only [List.nil_append, List.cons_append, List.singleton_append, PutUint16, PutUint32,
      PutUint64, List.cons.injEq] at h <;>
    unfold Byte at h <;>
    refine ⟨by omega, ?_⟩ <;>
    first
      | (exfalso; omega)
      | exact h.2
      | exact h.2.2.2
      | exact h.2.2.2.2.2
      | exact h.2.2.2.2.2.2.2.2.2

theorem writeVarInt_length_pos (pver val : Nat) : 0 < (writeVarInt [] pver val).1.length := by
  unfold writeVarInt Buffer.Write
  split_ifs <;> simp

theorem writeTxOut_append_injective (o1 o2 : TxOut) (r1 r2 : List Byte)
    (h1 : o1.InRange) (h2 : o2.InRange)
    (h : (writeTxOut [] 0 0 o1).1 ++ r1 = (writeTxOut [] 0 0 o2).1 ++ r2) :
    o1 = o2 ∧ r1 = r2 := by
  obtain ⟨h1lo, h1hi, h1len⟩ := h1
  obtain ⟨h2lo, h2hi, h2len⟩ := h2
  rw [writeTxOut_eq, writeTxOut_eq] at h
  simp only [List.nil_append, List.append_assoc, Nat.mod_eq_of_lt h1len,
    Nat.mod_eq_of_lt h2len] at h
  obtain ⟨hval, hrest⟩ := List.append_inj h (by rw [PutUint64_length, PutUint64_length])
  have hv : o1.Value = o2.Value :=
    toUint64_injective _ _ ⟨h1lo, h1hi⟩ ⟨h2lo, h2hi⟩
      (PutUint64_injective _ _ (toUint64_lt _) (toUint64_lt _) hval)
  obtain ⟨hlen, hrest2⟩ := writeVarInt_append_injective _ _ _ _ h1len h2len hrest
  obtain ⟨hscript, hr⟩ := List.append_inj hrest2 hlen
  refine ⟨?_, hr⟩
  cases o1
  cases o2
  simp only at hv hscript
  rw [hv, hscript]

theorem writeTxOut_length_pos (o : TxOut) : 0 < (writeTxOut [] 0 0 o).1.length := by
  rw [writeTxOut_eq]
  simp [PutUint64_length]

theorem flatMap_writeTxOut_injective (l1 l2 : List TxOut)
    (h1 : ∀ o ∈ l1, o.InRange) (h2 : ∀ o ∈ l2, o.InRange)
    (h : l1.flatMap (fun out => (writeTxOut [] 0 0 out).1)
      = l2.flatMap (fun out => (writeTxOut [] 0 0 out).1)) : l1 = l2 := by
  induction l1 generalizing l2 with
  | nil =>
    cases l2 with
    | nil => rfl
    | cons o2 t2 =>
      exfalso
      have hlen := congrArg List.length h
      have hpos := writeTxOut_length_pos o2
      simp only [List.flatMap_nil, List.flatMap_cons, List.length_nil, List.length_append] at hlen
      omega
  | cons o1 t1 ih =>
    cases l2 with
    | nil =>
      exfalso
      have hlen := congrArg List.length h
      have hpos := writeTxOut_length_pos o1
      simp only [List.flatMap_nil, List.flatMap_cons, List.length_nil, List.length_append] at hlen
      omega
    | cons o2 t2 =>
      simp only [List.flatMap_cons] at h
      obtain ⟨ho, ht⟩ := writeTxOut_append_injective o1 o2 _ _
        (h1 o1 (List.mem_cons_self _ _)) (h2 o2 (List.mem_cons_self _ _)) h
      rw [ho, ih t2 (fun o hm => h1 o (List.mem_cons_of_mem _ hm))
        (fun o hm => h2 o (List.mem_cons_of_mem _ hm)) ht]

/-- C20: the `writeTxOut` encoding is free of proper extensions (if the encoding
of `o1`, followed by any bytes `r`, is the encoding of `o2`, then `o1 = o2` and
`r` is empty), and two output lists whose encodings concatenate to the same
byte string, the one `calcHashOutputs` hashes for flag ALL, are equal. The
outputs are those of the Go types: `Value` an `int64`, script length below
2^64. -/
theorem writeTxOut_uniquely_decodable (H : List Byte → ShaHash) (tx1 tx2 : MsgTx)
    (o1 o2 : TxOut) (i j : Int)
    (ho1 : o1.InRange) (ho2 : o2.InRange)
    (h1 : ∀ o ∈ tx1.TxOut, o.InRange) (h2 : ∀ o ∈ tx2.TxOut, o.InRange) :
    (∀ r, (writeTxOut [] 0 0 o1).1 ++ r = (writeTxOut [] 0 0 o2).1 → o1 = o2 ∧ r = [])
    ∧ (tx1.TxOut.flatMap (fun out => (writeTxOut [] 0 0 out).1)
        = tx2.TxOut.flatMap (fun out => (writeTxOut [] 0 0 out).1) → tx1.TxOut = tx2.TxOut)
    ∧ calcHashOutputs H tx1 i SigHashAll
        = some (H (tx1.TxOut.flatMap (fun out => (writeTxOut [] 0 0 out).1)))
    ∧ calcHashOutputs H tx2 j SigHashAll
        = some (H (tx2.TxOut.flatMap (fun out => (writeTxOut [] 0 0 out).1))) := by
  refine ⟨?_, flatMap_writeTxOut_injective _ _ h1 h2, ?_, ?_⟩
  · intro r hr
    exact writeTxOut_append_injective o1 o2 r [] ho1 ho2 (by rw [List.append_nil]; exact hr)
  · rw [calcHashOutputs_all H tx1 i SigHashAll (by decide) (by decide)]
    simp [writeTxOut_eq]
  · rw [calcHashOutputs_all H tx2 j SigHashAll (by decide) (by decide)]
    simp [writeTxOut_eq]

/-- Witness of C20: the two outputs of the BIP143 transaction, and its output
list against the one that differs in the first output. -/
theorem writeTxOut_uniquely_decodable_witness :
    bip143Out0.InRange ∧ bip143Out1.InRange
    ∧ (∀ o ∈ bip143Tx.TxOut, o.InRange) ∧ (∀ o ∈ bip143TxAlt.TxOut, o.InRange)
    ∧ (bip143Tx.TxOut.flatMap (fun out => (writeTxOut [] 0 0 out).1)
        = bip143TxAlt.TxOut.flatMap (fun out => (writeTxOut [] 0 0 out).1)
        → bip143Tx.TxOut = bip143TxAlt.TxOut)
    ∧ bip143Tx.TxOut.flatMap (fun out => (writeTxOut [] 0 0 out).1)
        ≠ bip143TxAlt.TxOut.flatMap (fun out => (writeTxOut [] 0 0 out).1) :=
  ⟨by decide, by decide, by decide, by decide,
    (writeTxOut_uniquely_decodable DoubleSha256SH bip143Tx bip143TxAlt bip143Out0 bip143Out1
      0 1 (by decide) (by decide) (by decide) (by decide)).2.1,
    by decide⟩

end Sighash143
